import Mathlib

set_option linter.unusedVariables false

/-!
Shallow embedding of rdm/tex.py: YAML front-matter extraction, the
line-oriented LaTeX patch passes (margins, title/ToC, header/footer) and the
image-resolution pass, together with the pipeline driver yaml_gfm_to_tex.

Modelling conventions:
* Python strings are Lean String (lists of characters via String.data);
  raw input text is List Char.
* Python lists of lines are List String; list.insert / list.index are
  embedded as pyInsert / pyIndex with Python's exact semantics (insert
  clamps, index finds the first occurrence or raises ValueError).
* In-place mutation plus exceptions is embedded as Except where the error
  value carries the state of the mutated list (and filesystem state) at the
  moment the exception is raised.
* Front matter is an association list String -> String; the passes only use
  values via string concatenation and str(), so values are modelled as their
  string renderings.  A missing key is a KeyError at the point of use, after
  any mutation that Python has already performed.
* External collaborators (pandoc, the YAML parser, the SVG rasterizer, the
  filesystem) are parameters or an explicit FsState; shutil.copyfile and the
  rasterizer fail when the source file is missing, as in Python.
* All literal brace characters inside string literals are written with the
  escapes \x7b and \x7d.
-/

namespace Rdm

/-! ## Python list primitives -/

/-- Python list.insert (clamping at both ends, insert before position i). -/
def pyInsert {α : Type} (i : Nat) (v : α) (xs : List α) : List α :=
  xs.take i ++ v :: xs.drop i

/-- Python list.index: position of the first occurrence, none = ValueError. -/
def pyIndex (x : String) : List String → Option Nat
  | [] => none
  | y :: ys => if y = x then some 0 else (pyIndex x ys).map (· + 1)

/-- tex.py _insert_liness: for line in reversed(new_lines):
    existing.insert(index, line).  The recursion inserts the later lines
    first, exactly like the reversed loop. -/
def _insert_liness (existing : List String) (index : Nat) : List String → List String
  | [] => existing
  | l :: ls => pyInsert index l (_insert_liness existing index ls)

/-! ## Front matter and errors -/

/-- Front matter: a mapping of string keys to (string-rendered) values. -/
def FrontMatter : Type := List (String × String)

/-- Python dict lookup front_matter[k]; none = KeyError. -/
def fmGet (fm : FrontMatter) (k : String) : Option String :=
  (fm.find? (fun p => p.1 = k)).map Prod.snd

/-- The Python exceptions the passes can raise. -/
inductive PassError : Type where
  | valueError (msg : String)
  | keyError (key : String)
  | indexError
  | fileNotFound (path : String)
deriving DecidableEq, Repr

/-! ## The literal lines of tex.py -/

def beginDocument : String := "\\begin\x7bdocument\x7d"

def documentclassSingle : String := "\\documentclass[]\x7barticle\x7d"

def documentclassOpen : String := "\\documentclass["

def documentclassClose : String := "]\x7barticle\x7d"

def marginLine : String := "\\usepackage[margin=1.25in]\x7bgeometry\x7d"

def maketitleLine : String := "\\maketitle"

def thispagestyleEmpty : String := "\\thispagestyle\x7bempty\x7d"

def tableofcontentsLine : String := "\\tableofcontents"

def pagebreakLine : String := "\\pagebreak"

def titleLine1 (title : String) : String := "\\title\x7b" ++ title ++ " \\\\ "

def titleLine2 (idv revision : String) : String :=
  "\\large " ++ idv ++ ", Rev. " ++ revision ++ "\x7d"

def dateLine : String := "\\date\x7b\\today\x7d"

def authorLine (manufacturer : String) : String :=
  "\\author\x7b" ++ manufacturer ++ "\x7d"

/-- The four lines Title & ToC inserts before the begin-document anchor. -/
def titleBlock (title idv revision manufacturer : String) : List String :=
  [titleLine1 title, titleLine2 idv revision, dateLine, authorLine manufacturer]

/-- The four lines Title & ToC inserts after the begin-document anchor. -/
def afterTitleBlock : List String :=
  [maketitleLine, thispagestyleEmpty, tableofcontentsLine, pagebreakLine]

def fancyhdrLine : String := "\\usepackage\x7bfancyhdr\x7d"

def lastpageLine : String := "\\usepackage\x7blastpage\x7d"

def pagestyleFancyLine : String := "\\pagestyle\x7bfancy\x7d"

def lheadLine (title : String) : String := "\\lhead\x7b" ++ title ++ "\x7d"

def rheadLine (idv revision : String) : String :=
  "\\rhead\x7b" ++ idv ++ ", Rev. " ++ revision ++ "\x7d"

def cfootLine : String := "\\cfoot\x7bPage \\thepage\\ of \\pageref\x7bLastPage\x7d\x7d"

/-- The six lines Header & Footer inserts before the begin-document anchor. -/
def headerBlock (title idv revision : String) : List String :=
  [fancyhdrLine, lastpageLine, pagestyleFancyLine,
   lheadLine title, rheadLine idv revision, cfootLine]

/-! ## The patch passes -/

/-- tex.py add_title_and_toc.  The after-anchor block is inserted first; the
    before-anchor block's lines are built (looking up title, id, revision,
    manufacturer_name in that order, as Python evaluates the list literal)
    only afterwards, so a KeyError is raised after the first insertion. -/
def add_title_and_toc {Ctx : Type} (tex_lines : List String) (front_matter : FrontMatter)
    (context : Ctx) : Except (PassError × List String) (List String) :=
  match pyIndex beginDocument tex_lines with
  | none => .error (.valueError "not in list", tex_lines)
  | some begin_document_index =>
    let lines1 := _insert_liness tex_lines (begin_document_index + 1) afterTitleBlock
    match fmGet front_matter "title" with
    | none => .error (.keyError "title", lines1)
    | some title =>
    match fmGet front_matter "id" with
    | none => .error (.keyError "id", lines1)
    | some idv =>
    match fmGet front_matter "revision" with
    | none => .error (.keyError "revision", lines1)
    | some revision =>
    match fmGet front_matter "manufacturer_name" with
    | none => .error (.keyError "manufacturer_name", lines1)
    | some manufacturer =>
      .ok (_insert_liness lines1 begin_document_index
        (titleBlock title idv revision manufacturer))

/-- tex.py add_header_and_footer.  Same anchor; one line after it, then six
    lines before it (the before block looks up title, id, revision). -/
def add_header_and_footer {Ctx : Type} (tex_lines : List String) (front_matter : FrontMatter)
    (context : Ctx) : Except (PassError × List String) (List String) :=
  match pyIndex beginDocument tex_lines with
  | none => .error (.valueError "not in list", tex_lines)
  | some begin_document_index =>
    let lines1 := _insert_liness tex_lines (begin_document_index + 1) [thispagestyleEmpty]
    match fmGet front_matter "title" with
    | none => .error (.keyError "title", lines1)
    | some title =>
    match fmGet front_matter "id" with
    | none => .error (.keyError "id", lines1)
    | some idv =>
    match fmGet front_matter "revision" with
    | none => .error (.keyError "revision", lines1)
    | some revision =>
      .ok (_insert_liness lines1 begin_document_index (headerBlock title idv revision))

/-- tex.py add_margins: try the single-line document class, fall back to the
    two-line split form (tex_lines[i+1] may raise IndexError); on the
    re-raise path nothing has been inserted. -/
def add_margins {Ctx : Type} (tex_lines : List String) (front_matter : FrontMatter)
    (context : Ctx) : Except (PassError × List String) (List String) :=
  match pyIndex documentclassSingle tex_lines with
  | some document_class_index =>
    .ok (pyInsert (document_class_index + 1) marginLine tex_lines)
  | none =>
    match pyIndex documentclassOpen tex_lines with
    | none => .error (.valueError "not in list", tex_lines)
    | some i =>
      match tex_lines.get? (i + 1) with
      | none => .error (.indexError, tex_lines)
      | some nxt =>
        if nxt = documentclassClose then .ok (pyInsert (i + 2) marginLine tex_lines)
        else .error (.valueError "not in list", tex_lines)

/-- The three insertion passes in pipeline order: margins, title & ToC,
    header & footer. -/
def patchPipeline3 {Ctx : Type} (tex_lines : List String) (front_matter : FrontMatter)
    (context : Ctx) : Except (PassError × List String) (List String) :=
  match add_margins tex_lines front_matter context with
  | .error e => .error e
  | .ok l1 =>
    match add_title_and_toc l1 front_matter context with
    | .error e => .error e
    | .ok l2 => add_header_and_footer l2 front_matter context

/-! ## Front-matter extraction (raw_string.split('---\n')) -/

/-- The split separator of _extract_yaml_front_matter. -/
def yamlDelim : List Char := ['-', '-', '-', '\n']

/-- Split at the leftmost occurrence of sep: the part before it and the rest
    after it; none when sep does not occur. -/
def splitFirst (sep : List Char) (s : List Char) : Option (List Char × List Char) :=
  if sep.isPrefixOf s then some ([], s.drop sep.length)
  else
    match s with
    | [] => none
    | c :: rest => (splitFirst sep rest).map (fun p => (c :: p.1, p.2))

/-- Fuelled iteration of splitFirst; with fuel >= s.length this is Python's
    s.split('---\n'). -/
def pySplitF (fuel : Nat) (s : List Char) : List (List Char) :=
  match fuel with
  | 0 => [s]
  | fuel' + 1 =>
    match splitFirst yamlDelim s with
    | none => [s]
    | some (part, rest) => part :: pySplitF fuel' rest

/-- Python s.split('---\n'): all parts, leftmost-first, empties kept. -/
def pySplit (s : List Char) : List (List Char) := pySplitF s.length s

/-- Python sep.join(parts). -/
def pyJoinList (sep : List Char) : List (List Char) → List Char
  | [] => []
  | [x] => x
  | x :: y :: rest => x ++ sep ++ pyJoinList sep (y :: rest)

/-- The body of _extract_yaml_front_matter after the split: fewer than three
    parts is the ValueError; otherwise parts[1] is parsed as YAML and
    parts[2:] are rejoined with the delimiter. -/
def extractParts {α : Type} (yamlLoad : List Char → Except String α) :
    List (List Char) → Except String (List Char × α)
  | _ :: front_matter_string :: p2 :: rest =>
    (match yamlLoad front_matter_string with
     | .error e => .error ("Invalid YAML front matter; improperly formatted YAML: " ++ e)
     | .ok front_matter => .ok (pyJoinList yamlDelim (p2 :: rest), front_matter))
  | _ => .error "Invalid YAML front matter"

/-- tex.py _extract_yaml_front_matter, parameterised by the external YAML
    parser. -/
def _extract_yaml_front_matter {α : Type} (yamlLoad : List Char → Except String α)
    (raw_string : List Char) : Except String (List Char × α) :=
  extractParts yamlLoad (pySplit raw_string)

/-- Number of positions at which the delimiter '---\n' occurs in s (the
    delimiter cannot overlap itself, so this is the plain occurrence count). -/
def countOcc (s : List Char) : Nat :=
  ((List.range s.length).filter (fun i => yamlDelim.isPrefixOf (s.drop i))).length

/-! ## The image-resolution pass -/

/-- Staging-filesystem state: existing files, created directories, stderr
    diagnostics (print_error, modelled from the spec as a non-fatal log),
    and the copy / rasterize invocations that happened. -/
structure FsState : Type where
  files : List String
  dirs : List String
  logs : List String
  copies : List (String × String)
  rasterized : List (String × String)
deriving DecidableEq, Repr

/-- Suffix test on the underlying characters (Python str.endswith). -/
def strEndsWith (s suffix : String) : Bool := suffix.data.isSuffixOf s.data

/-- Membership test on the underlying characters (Python str.startswith). -/
def strStartsWith (s pre : String) : Bool := pre.data.isPrefixOf s.data

/-- os.path.split: split at the last slash; the head keeps no trailing
    slashes unless it consists only of slashes. -/
def pySplitPath (p : String) : String × String :=
  let l := p.data
  let tail := (l.reverse.takeWhile (fun c => ¬ (c = '/'))).reverse
  let head := l.take (l.length - tail.length)
  let head' :=
    if head ≠ [] ∧ head.any (fun c => ¬ (c = '/')) then
      (head.reverse.dropWhile (fun c => c = '/')).reverse
    else head
  (String.mk head', String.mk tail)

/-- Python str.rfind for a single character: last index, -1 when absent. -/
def rfindIdx (c : Char) (l : List Char) : Int :=
  match ((List.range l.length).filter (fun i => decide (l.get? i = some c))).getLast? with
  | none => -1
  | some i => (i : Int)

/-- os.path.splitext: split at the last dot after the last slash, unless the
    name up to that dot is all dots. -/
def pySplitExt (p : String) : String × String :=
  let l := p.data
  let sepIndex := rfindIdx '/' l
  let dotIndex := rfindIdx '.' l
  if sepIndex < dotIndex then
    if (List.range l.length).any
        (fun j => decide (sepIndex < (j : Int) ∧ (j : Int) < dotIndex ∧ l.get? j ≠ some '.')) then
      (String.mk (l.take dotIndex.toNat), String.mk (l.drop dotIndex.toNat))
    else (p, "")
  else (p, "")

/-- os.path.join for two components (posixpath.join). -/
def pyJoin (a b : String) : String :=
  if strStartsWith b "/" then b
  else if a = "" ∨ strEndsWith a "/" then a ++ b
  else a ++ "/" ++ b

/-- The staged output path handle_images computes for an svg reference:
    the staging directory mirrors the source directory under ./tmp/ and the
    file name has its extension swapped to .pdf. -/
def stagedSvgPath (path : String) : String :=
  pyJoin (pyJoin "./tmp/" (pySplitPath path).1) ((pySplitExt (pySplitPath path).2).1 ++ ".pdf")

/-- The staged output path handle_images computes for a non-svg reference:
    same staging directory, file name kept verbatim. -/
def stagedCopyPath (path : String) : String :=
  pyJoin (pyJoin "./tmp/" (pySplitPath path).1) (pySplitPath path).2

/-- The literal prefix matched by img_pattern and svg_pattern. -/
def imgLeadL : List Char := "\\includegraphics\x7b../".data

/-- img_pattern.search(line): the line (up to one trailing newline, per the
    regex dollar anchor) must start with the literal prefix and end with a
    closing brace; the captured path is everything in between and, because
    the dot metacharacter excludes newlines, may not contain one. -/
def imgMatchL (l : List Char) : Option (List Char) :=
  let core := if l.getLast? = some '\n' then l.dropLast else l
  if imgLeadL.isPrefixOf core then
    let rest := core.drop imgLeadL.length
    if rest.getLast? = some '\x7d' then
      if rest.dropLast.contains '\n' then none else some rest.dropLast
    else none
  else none

/-- An image-inclusion line with the given captured path. -/
def imgBuild (path : String) : String := "\\includegraphics\x7b../" ++ path ++ "\x7d"

/-- The rewritten inclusion line with the fixed 95%-of-text-width display. -/
def imgRewrite (output_path : String) : String :=
  "\\includegraphics[width=0.95\\textwidth]\x7b" ++ output_path ++ "\x7d"

/-- tex.py svg_to_pdf via svglib/reportlab, modelled: records the
    invocation and writes the output file; fails (like the real library)
    when the source file does not exist. -/
def svg_to_pdf (fs : FsState) (svg_filename pdf_filename : String) :
    Except PassError FsState :=
  if fs.files.contains svg_filename then
    .ok { fs with files := pdf_filename :: fs.files,
                  rasterized := (svg_filename, pdf_filename) :: fs.rasterized }
  else .error (.fileNotFound svg_filename)

/-- shutil.copyfile, modelled: byte-copies the file; raises
    FileNotFoundError when the source does not exist. -/
def shutil_copyfile (fs : FsState) (src dst : String) : Except PassError FsState :=
  if fs.files.contains src then
    .ok { fs with files := dst :: fs.files, copies := (src, dst) :: fs.copies }
  else .error (.fileNotFound src)

/-- The body of the handle_images loop for one line.  Within the matched
    branch, svg_pattern differs from img_pattern only in requiring the
    captured path to end in .svg, so the svg test is that suffix test on the
    captured path.  print_error is modelled from the spec: a non-fatal
    stderr log (os.path.abspath is the external parameter ab). -/
def processImageLine (ab : String → String) (fs : FsState) (line : String) :
    Except (PassError × FsState) (String × FsState) :=
  match imgMatchL line.data with
  | none => .ok (line, fs)
  | some pathL =>
    let input_path := String.mk pathL
    let fs1 :=
      { fs with logs :=
          if fs.files.contains input_path then fs.logs
          else ("Image does not exist: " ++ ab input_path) :: fs.logs }
    let sp := pySplitPath input_path
    let output_directory := pyJoin "./tmp/" sp.1
    let fs2 := { fs1 with dirs := output_directory :: fs1.dirs }
    if strEndsWith input_path ".svg" then
      let se := pySplitExt sp.2
      let output_path := pyJoin output_directory (se.1 ++ ".pdf")
      match svg_to_pdf fs2 input_path output_path with
      | .error e => .error (e, fs2)
      | .ok fs3 => .ok (imgRewrite output_path, fs3)
    else
      let output_path := pyJoin output_directory sp.2
      match shutil_copyfile fs2 input_path output_path with
      | .error e => .error (e, fs2)
      | .ok fs3 => .ok (imgRewrite output_path, fs3)

/-- tex.py handle_images: rewrite every matching line in place; an error
    aborts the pass, carrying the partially rewritten lines and the
    filesystem state at that moment.  front_matter and context are unused,
    as in the source. -/
def handle_images {Ctx : Type} (tex_lines : List String) (front_matter : FrontMatter)
    (context : Ctx) (ab : String → String) (fs : FsState) :
    Except (PassError × List String × FsState) (List String × FsState) :=
  match tex_lines with
  | [] => .ok ([], fs)
  | line :: rest =>
    match processImageLine ab fs line with
    | .error (e, fs') => .error (e, line :: rest, fs')
    | .ok (line', fs') =>
      match handle_images rest front_matter context ab fs' with
      | .error (e, rest', fs'') => .error (e, line' :: rest', fs'')
      | .ok (rest', fs'') => .ok (line' :: rest', fs'')

/-! ## The pipeline driver -/

/-- Result of the pandoc subprocess (returncode and standard output). -/
structure PandocResult : Type where
  returncode : Int
  stdout : List Char

/-- Python tex.split('\n'). -/
def splitOnNl : List Char → List (List Char)
  | [] => [[]]
  | c :: rest =>
    if c = '\n' then [] :: splitOnNl rest
    else
      match splitOnNl rest with
      | [] => [[c]]
      | h :: t => (c :: h) :: t

/-- The fatal pipeline outcomes of yaml_gfm_to_tex. -/
inductive PipelineError : Type where
  | formatError (msg : String)
  | pandocError (msg : String)
  | passError (e : PassError)
deriving DecidableEq, Repr

/-- tex.py yaml_gfm_to_tex: extract front matter, convert with pandoc,
    run the four patch passes in order, join the lines for the output
    file.  pandoc, the YAML parser, abspath and the filesystem are the
    external parameters. -/
def yaml_gfm_to_tex {Ctx : Type} (yamlLoad : List Char → Except String FrontMatter)
    (pandocRun : List Char → PandocResult) (ab : String → String) (fs : FsState)
    (input_text : List Char) (context : Ctx) : Except PipelineError (String × FsState) :=
  match _extract_yaml_front_matter yamlLoad input_text with
  | .error e => .error (.formatError e)
  | .ok (markdown, front_matter) =>
    let p := pandocRun markdown
    if p.returncode ≠ 0 then .error (.pandocError "Pandoc failed to convert markdown to latex")
    else
      let tex_lines := (splitOnNl p.stdout).map String.mk
      match add_margins tex_lines front_matter context with
      | .error (e, _) => .error (.passError e)
      | .ok l1 =>
      match add_title_and_toc l1 front_matter context with
      | .error (e, _) => .error (.passError e)
      | .ok l2 =>
      match add_header_and_footer l2 front_matter context with
      | .error (e, _) => .error (.passError e)
      | .ok l3 =>
      match handle_images l3 front_matter context ab fs with
      | .error (e, _, _) => .error (.passError e)
      | .ok (l4, fs') => .ok (String.intercalate "\n" l4, fs')

/-! ## Lemmas: list and string primitives -/

theorem sdata_append (a b : String) : (a ++ b).data = a.data ++ b.data := by
  cases a; cases b; rfl

theorem string_mk_data (s : String) : String.mk s.data = s := by
  cases s; rfl

theorem pyInsert_at {α : Type} (x : α) (A C : List α) :
    pyInsert A.length x (A ++ C) = A ++ x :: C := by
  simp [pyInsert, List.take_left, List.drop_left]

theorem insert_liness_at (A B : List String) (N : List String) :
    _insert_liness (A ++ B) A.length N = A ++ N ++ B := by
  induction N with
  | nil => simp [_insert_liness]
  | cons l ls ih =>
    simp only [_insert_liness, ih]
    rw [show A ++ (l :: ls) ++ B = A ++ l :: (ls ++ B) by simp,
        show A ++ ls ++ B = A ++ (ls ++ B) by simp, pyInsert_at]

theorem pyIndex_none (x : String) (l : List String) (h : x ∉ l) : pyIndex x l = none := by
  induction l with
  | nil => rfl
  | cons a l ih =>
    have ha : ¬ (a = x) := fun he => h (by simp [he])
    have h' : x ∉ l := fun hm => h (List.mem_cons_of_mem _ hm)
    simp [pyIndex, ha, ih h']

theorem pyIndex_append_cons (x : String) (A B : List String) (hA : x ∉ A) :
    pyIndex x (A ++ x :: B) = some A.length := by
  induction A with
  | nil => simp [pyIndex]
  | cons a A ih =>
    have ha : ¬ (a = x) := fun he => hA (by simp [he])
    have hA' : x ∉ A := fun hm => hA (List.mem_cons_of_mem _ hm)
    simp [pyIndex, ha, ih hA']

theorem pyIndex_some_get (x : String) (l : List String) (j : Nat)
    (h : pyIndex x l = some j) : l.get? j = some x := by
  induction l generalizing j with
  | nil => simp [pyIndex] at h
  | cons a l ih =>
    by_cases ha : a = x
    · rw [pyIndex, if_pos ha] at h
      injection h with h
      subst h
      simp [ha]
    · rw [pyIndex, if_neg ha] at h
      rcases Option.map_eq_some'.mp h with ⟨j', hj', hjj⟩
      subst hjj
      simpa using ih j' hj'

theorem get?_append_cons {α : Type} (x : α) (A B : List α) :
    (A ++ x :: B).get? A.length = some x := by
  induction A with
  | nil => rfl
  | cons a A ih => simpa using ih

theorem drop_length_add {α : Type} (a b : List α) (k : Nat) :
    (a ++ b).drop (a.length + k) = b.drop k := by
  induction a with
  | nil => simp
  | cons x xs ih => simpa [Nat.succ_add] using ih

/-! ## Lemmas: the inserted lines never equal the begin-document anchor -/

theorem titleLine1_ne_begin (t : String) : titleLine1 t ≠ beginDocument := by
  intro h
  have h2 := congrArg String.data h
  rw [titleLine1, beginDocument] at h2
  simp only [sdata_append] at h2
  simp at h2

theorem titleLine2_ne_begin (i r : String) : titleLine2 i r ≠ beginDocument := by
  intro h
  have h2 := congrArg String.data h
  rw [titleLine2, beginDocument] at h2
  simp only [sdata_append] at h2
  simp at h2

theorem authorLine_ne_begin (m : String) : authorLine m ≠ beginDocument := by
  intro h
  have h2 := congrArg String.data h
  rw [authorLine, beginDocument] at h2
  simp only [sdata_append] at h2
  simp at h2

theorem begin_not_mem_titleBlock (t i r m : String) :
    beginDocument ∉ titleBlock t i r m := by
  intro h
  simp only [titleBlock, List.mem_cons, List.not_mem_nil, or_false] at h
  rcases h with h | h | h | h
  · exact titleLine1_ne_begin t h.symm
  · exact titleLine2_ne_begin i r h.symm
  · exact absurd h (by decide)
  · exact authorLine_ne_begin m h.symm

/-! ## Lemmas: structure of the three insertion passes -/

theorem add_margins_single {Ctx : Type} (A B : List String) (fm : FrontMatter) (c : Ctx)
    (hA : documentclassSingle ∉ A) :
    add_margins (A ++ documentclassSingle :: B) fm c
      = .ok (A ++ documentclassSingle :: marginLine :: B) := by
  have h := pyIndex_append_cons documentclassSingle A B hA
  simp only [add_margins, h]
  rw [show A ++ documentclassSingle :: B = (A ++ [documentclassSingle]) ++ B by simp,
      show A.length + 1 = (A ++ [documentclassSingle]).length by simp, pyInsert_at]
  simp

theorem add_margins_twoline {Ctx : Type} (A B : List String) (fm : FrontMatter) (c : Ctx)
    (hs : documentclassSingle ∉ (A ++ documentclassOpen :: documentclassClose :: B))
    (hA : documentclassOpen ∉ A) :
    add_margins (A ++ documentclassOpen :: documentclassClose :: B) fm c
      = .ok (A ++ documentclassOpen :: documentclassClose :: marginLine :: B) := by
  have h0 := pyIndex_none documentclassSingle _ hs
  have h1 := pyIndex_append_cons documentclassOpen A (documentclassClose :: B) hA
  have h2 : (A ++ documentclassOpen :: documentclassClose :: B).get? (A.length + 1)
      = some documentclassClose := by
    rw [show A ++ documentclassOpen :: documentclassClose :: B
        = (A ++ [documentclassOpen]) ++ documentclassClose :: B by simp,
        show A.length + 1 = (A ++ [documentclassOpen]).length by simp, get?_append_cons]
  simp only [add_margins, h0, h1, h2, if_pos rfl]
  rw [show A ++ documentclassOpen :: documentclassClose :: B
      = (A ++ [documentclassOpen, documentclassClose]) ++ B by simp,
      show A.length + 2 = (A ++ [documentclassOpen, documentclassClose]).length by simp,
      pyInsert_at]
  simp

theorem add_margins_err {Ctx : Type} (lines : List String) (fm : FrontMatter) (c : Ctx)
    (hs : documentclassSingle ∉ lines)
    (hpair : ∀ j, lines.get? j = some documentclassOpen →
      lines.get? (j + 1) ≠ some documentclassClose) :
    ∃ e, add_margins lines fm c = .error (e, lines) := by
  have h0 := pyIndex_none documentclassSingle _ hs
  cases h1 : pyIndex documentclassOpen lines with
  | none =>
    refine ⟨.valueError "not in list", ?_⟩
    simp only [add_margins, h0, h1]
  | some j =>
    have hj := pyIndex_some_get _ _ _ h1
    cases h2 : lines.get? (j + 1) with
    | none =>
      refine ⟨.indexError, ?_⟩
      simp only [add_margins, h0, h1, h2]
    | some nxt =>
      have hne : ¬ (nxt = documentclassClose) := by
        intro he
        exact hpair j hj (by rw [h2, he])
      refine ⟨.valueError "not in list", ?_⟩
      simp only [add_margins, h0, h1, h2, if_neg hne]

theorem add_title_structure {Ctx : Type} (A B : List String) (fm : FrontMatter) (c : Ctx)
    (t i r m : String) (hA : beginDocument ∉ A)
    (ht : fmGet fm "title" = some t) (hi : fmGet fm "id" = some i)
    (hr : fmGet fm "revision" = some r) (hm : fmGet fm "manufacturer_name" = some m) :
    add_title_and_toc (A ++ beginDocument :: B) fm c
      = .ok (A ++ titleBlock t i r m ++ beginDocument :: (afterTitleBlock ++ B)) := by
  have hidx := pyIndex_append_cons beginDocument A B hA
  have e1 : _insert_liness (A ++ beginDocument :: B) (A.length + 1) afterTitleBlock
      = (A ++ [beginDocument]) ++ afterTitleBlock ++ B := by
    rw [show A ++ beginDocument :: B = (A ++ [beginDocument]) ++ B by simp,
        show A.length + 1 = (A ++ [beginDocument]).length by simp, insert_liness_at]
  have e2 : _insert_liness ((A ++ [beginDocument]) ++ afterTitleBlock ++ B) A.length
      (titleBlock t i r m)
      = A ++ titleBlock t i r m ++ (beginDocument :: (afterTitleBlock ++ B)) := by
    rw [show (A ++ [beginDocument]) ++ afterTitleBlock ++ B
        = A ++ (beginDocument :: (afterTitleBlock ++ B)) by simp, insert_liness_at]
  simp only [add_title_and_toc, hidx, e1, ht, hi, hr, hm, e2]

theorem add_header_structure {Ctx : Type} (A B : List String) (fm : FrontMatter) (c : Ctx)
    (t i r : String) (hA : beginDocument ∉ A)
    (ht : fmGet fm "title" = some t) (hi : fmGet fm "id" = some i)
    (hr : fmGet fm "revision" = some r) :
    add_header_and_footer (A ++ beginDocument :: B) fm c
      = .ok (A ++ headerBlock t i r ++ beginDocument :: thispagestyleEmpty :: B) := by
  have hidx := pyIndex_append_cons beginDocument A B hA
  have e1 : _insert_liness (A ++ beginDocument :: B) (A.length + 1) [thispagestyleEmpty]
      = (A ++ [beginDocument]) ++ [thispagestyleEmpty] ++ B := by
    rw [show A ++ beginDocument :: B = (A ++ [beginDocument]) ++ B by simp,
        show A.length + 1 = (A ++ [beginDocument]).length by simp, insert_liness_at]
  have e2 : _insert_liness ((A ++ [beginDocument]) ++ [thispagestyleEmpty] ++ B) A.length
      (headerBlock t i r)
      = A ++ headerBlock t i r ++ (beginDocument :: thispagestyleEmpty :: B) := by
    rw [show (A ++ [beginDocument]) ++ [thispagestyleEmpty] ++ B
        = A ++ (beginDocument :: thispagestyleEmpty :: B) by simp, insert_liness_at]
  simp only [add_header_and_footer, hidx, e1, ht, hi, hr, e2]

theorem add_title_no_anchor {Ctx : Type} (lines : List String) (fm : FrontMatter) (c : Ctx)
    (h : beginDocument ∉ lines) :
    add_title_and_toc lines fm c = .error (.valueError "not in list", lines) := by
  simp [add_title_and_toc, pyIndex_none _ _ h]

theorem add_header_no_anchor {Ctx : Type} (lines : List String) (fm : FrontMatter) (c : Ctx)
    (h : beginDocument ∉ lines) :
    add_header_and_footer lines fm c = .error (.valueError "not in list", lines) := by
  simp [add_header_and_footer, pyIndex_none _ _ h]

theorem add_title_missing_key {Ctx : Type} (A B : List String) (fm : FrontMatter) (c : Ctx)
    (hA : beginDocument ∉ A) (hk : fmGet fm "title" = none) :
    add_title_and_toc (A ++ beginDocument :: B) fm c
      = .error (.keyError "title", A ++ beginDocument :: (afterTitleBlock ++ B)) := by
  have hidx := pyIndex_append_cons beginDocument A B hA
  have e1 : _insert_liness (A ++ beginDocument :: B) (A.length + 1) afterTitleBlock
      = (A ++ [beginDocument]) ++ afterTitleBlock ++ B := by
    rw [show A ++ beginDocument :: B = (A ++ [beginDocument]) ++ B by simp,
        show A.length + 1 = (A ++ [beginDocument]).length by simp, insert_liness_at]
  simp only [add_title_and_toc, hidx, e1, hk]
  simp

/-! ## Claim C5: the margins pass -/

/-- C5: the Margins pass inserts the geometry directive on the very next
line after the single-line document-class declaration; after the second
line of the two-line split form; and raises an error, inserting nothing,
when the document contains neither form. -/
theorem margins_pass_cases :
    (∀ (Ctx : Type) (A B : List String) (fm : FrontMatter) (c : Ctx),
      documentclassSingle ∉ A →
      add_margins (A ++ documentclassSingle :: B) fm c
        = .ok (A ++ documentclassSingle :: marginLine :: B))
    ∧ (∀ (Ctx : Type) (A B : List String) (fm : FrontMatter) (c : Ctx),
      documentclassSingle ∉ (A ++ documentclassOpen :: documentclassClose :: B) →
      documentclassOpen ∉ A →
      add_margins (A ++ documentclassOpen :: documentclassClose :: B) fm c
        = .ok (A ++ documentclassOpen :: documentclassClose :: marginLine :: B))
    ∧ (∀ (Ctx : Type) (lines : List String) (fm : FrontMatter) (c : Ctx),
      documentclassSingle ∉ lines →
      (∀ j, lines.get? j = some documentclassOpen →
        lines.get? (j + 1) ≠ some documentclassClose) →
      ∃ e, add_margins lines fm c = .error (e, lines)) :=
  ⟨fun _ A B fm c hA => add_margins_single A B fm c hA,
   fun _ A B fm c hs hA => add_margins_twoline A B fm c hs hA,
   fun _ lines fm c hs hp => add_margins_err lines fm c hs hp⟩

theorem margins_pass_cases_witness :
    add_margins [documentclassSingle] ([] : FrontMatter) ()
      = .ok [documentclassSingle, marginLine]
    ∧ add_margins [documentclassOpen, documentclassClose] ([] : FrontMatter) ()
      = .ok [documentclassOpen, documentclassClose, marginLine]
    ∧ ∃ e, add_margins ["x"] ([] : FrontMatter) () = .error (e, ["x"]) := by
  refine ⟨margins_pass_cases.1 Unit [] [] [] () (by decide),
    margins_pass_cases.2.1 Unit [] [] [] () (by decide) (by decide),
    margins_pass_cases.2.2 Unit ["x"] [] () (by decide) ?_⟩
  intro j hj
  cases j with
  | zero =>
    simp only [List.get?] at hj
    injection hj with hj
    exact absurd hj (by decide)
  | succ n => simp at hj

/-! ## Claim C3: atomicity of the passes -/

/-- C3 counterexample: on a document consisting of the anchor alone and an
empty front matter, Title & ToC raises a KeyError but the line sequence it
leaves behind is not the input: the four after-anchor lines were already
inserted before the missing key was looked up. -/
theorem missing_key_partial_mutation :
    add_title_and_toc ["\\begin\x7bdocument\x7d"] ([] : FrontMatter) ()
      = .error (.keyError "title",
          ["\\begin\x7bdocument\x7d", "\\maketitle", "\\thispagestyle\x7bempty\x7d",
           "\\tableofcontents", "\\pagebreak"])
    ∧ (["\\begin\x7bdocument\x7d", "\\maketitle", "\\thispagestyle\x7bempty\x7d",
       "\\tableofcontents", "\\pagebreak"] : List String)
       ≠ ["\\begin\x7bdocument\x7d"] :=
  ⟨rfl, by decide⟩

/-- C3 (amended): anchor-lookup failure aborts each pass before any
mutation, leaving the line sequence unchanged; but an error raised later in
a pass is not atomic: a missing front-matter key in Title & ToC is raised
only after the after-anchor block was inserted, leaving that insertion in
place. -/
theorem pass_atomicity_amended :
    (∀ (Ctx : Type) (lines : List String) (fm : FrontMatter) (c : Ctx),
      beginDocument ∉ lines →
      add_title_and_toc lines fm c = .error (.valueError "not in list", lines))
    ∧ (∀ (Ctx : Type) (lines : List String) (fm : FrontMatter) (c : Ctx),
      beginDocument ∉ lines →
      add_header_and_footer lines fm c = .error (.valueError "not in list", lines))
    ∧ (∀ (Ctx : Type) (lines : List String) (fm : FrontMatter) (c : Ctx),
      documentclassSingle ∉ lines →
      (∀ j, lines.get? j = some documentclassOpen →
        lines.get? (j + 1) ≠ some documentclassClose) →
      ∃ e, add_margins lines fm c = .error (e, lines))
    ∧ (∀ (Ctx : Type) (A B : List String) (fm : FrontMatter) (c : Ctx),
      beginDocument ∉ A → fmGet fm "title" = none →
      add_title_and_toc (A ++ beginDocument :: B) fm c
        = .error (.keyError "title", A ++ beginDocument :: (afterTitleBlock ++ B))) :=
  ⟨fun _ lines fm c h => add_title_no_anchor lines fm c h,
   fun _ lines fm c h => add_header_no_anchor lines fm c h,
   fun _ lines fm c hs hp => add_margins_err lines fm c hs hp,
   fun _ A B fm c hA hk => add_title_missing_key A B fm c hA hk⟩

theorem pass_atomicity_amended_witness :
    add_title_and_toc ["x"] ([] : FrontMatter) ()
      = .error (.valueError "not in list", ["x"])
    ∧ add_header_and_footer ["x"] ([] : FrontMatter) ()
      = .error (.valueError "not in list", ["x"])
    ∧ (∃ e, add_margins ["x"] ([] : FrontMatter) () = .error (e, ["x"]))
    ∧ add_title_and_toc ([] ++ beginDocument :: []) ([] : FrontMatter) ()
      = .error (.keyError "title", [] ++ beginDocument :: (afterTitleBlock ++ [])) := by
  refine ⟨pass_atomicity_amended.1 Unit ["x"] [] () (by decide),
    pass_atomicity_amended.2.1 Unit ["x"] [] () (by decide),
    pass_atomicity_amended.2.2.1 Unit ["x"] [] () (by decide) ?_,
    pass_atomicity_amended.2.2.2 Unit [] [] [] () (by decide) rfl⟩
  intro j hj
  cases j with
  | zero =>
    simp only [List.get?] at hj
    injection hj with hj
    exact absurd hj (by decide)
  | succ n => simp at hj

/-! ## Claim C6: net ordering after the anchor -/

/-- C6: when Title & ToC runs before Header & Footer on a document with
exactly one begin-document line, the result places the header pass's single
after-insertion line immediately after the anchor, followed by the title
pass's four after-insertion lines, in order. -/
theorem title_header_net_order {Ctx : Type} (A B : List String) (fm : FrontMatter)
    (c : Ctx) (t i r m : String)
    (hA : beginDocument ∉ A) (hB : beginDocument ∉ B)
    (ht : fmGet fm "title" = some t) (hi : fmGet fm "id" = some i)
    (hr : fmGet fm "revision" = some r) (hm : fmGet fm "manufacturer_name" = some m) :
    (add_title_and_toc (A ++ beginDocument :: B) fm c).bind
        (fun l1 => add_header_and_footer l1 fm c)
      = .ok (A ++ titleBlock t i r m ++ headerBlock t i r
          ++ beginDocument :: thispagestyleEmpty :: maketitleLine :: thispagestyleEmpty
          :: tableofcontentsLine :: pagebreakLine :: B) := by
  rw [add_title_structure A B fm c t i r m hA ht hi hr hm]
  have hA' : beginDocument ∉ A ++ titleBlock t i r m := by
    intro hmem
    rcases List.mem_append.mp hmem with h | h
    · exact hA h
    · exact begin_not_mem_titleBlock t i r m h
  simp only [Except.bind]
  rw [show A ++ titleBlock t i r m ++ beginDocument :: (afterTitleBlock ++ B)
      = (A ++ titleBlock t i r m) ++ beginDocument :: (afterTitleBlock ++ B) by simp]
  rw [add_header_structure (A ++ titleBlock t i r m) (afterTitleBlock ++ B) fm c
      t i r hA' ht hi hr]
  simp [afterTitleBlock]

theorem title_header_net_order_witness :
    (add_title_and_toc (["pre"] ++ beginDocument :: ["post"])
        [("title", "T"), ("id", "D"), ("revision", "1"), ("manufacturer_name", "M")] ()).bind
        (fun l1 => add_header_and_footer l1
          [("title", "T"), ("id", "D"), ("revision", "1"), ("manufacturer_name", "M")] ())
      = .ok (["pre"] ++ titleBlock "T" "D" "1" "M" ++ headerBlock "T" "D" "1"
          ++ beginDocument :: thispagestyleEmpty :: maketitleLine :: thispagestyleEmpty
          :: tableofcontentsLine :: pagebreakLine :: ["post"]) :=
  title_header_net_order ["pre"] ["post"] _ () "T" "D" "1" "M"
    (by decide) (by decide) rfl rfl rfl rfl

/-! ## Claim C1: insertion counts and total growth -/

/-- C1 counterexample: on the minimal three-line document the pipeline of
margins, Title & ToC and Header & Footer produces 19 lines, a growth of 16,
not the claimed 9; and Header & Footer alone turns a one-line document into
8 lines (6 inserted before the anchor, 1 after), not the claimed 4 + 4. -/
theorem pipeline_growth_counterexample :
    Except.map List.length
        (patchPipeline3
          ["\\documentclass[]\x7barticle\x7d", "\\begin\x7bdocument\x7d",
           "\\end\x7bdocument\x7d"]
          [("title", "T"), ("id", "D"), ("revision", "1"), ("manufacturer_name", "M")] ())
      = .ok 19
    ∧ (19 : Nat) ≠ 3 + 9
    ∧ Except.map List.length
        (add_header_and_footer ["\\begin\x7bdocument\x7d"]
          [("title", "T"), ("id", "D"), ("revision", "1"), ("manufacturer_name", "M")] ())
      = .ok 8
    ∧ (8 : Nat) ≠ 1 + 8 :=
  ⟨rfl, by decide, rfl, by decide⟩

/-- C1 (amended): Title & ToC inserts 4 lines before and 4 after the anchor;
Header & Footer inserts 6 before and 1 after; with the margins line the
three-pass pipeline grows the document by exactly 1 + 8 + 7 = 16 lines. -/
theorem pipeline_growth_sixteen {Ctx : Type} (A M B : List String) (fm : FrontMatter)
    (c : Ctx) (t i r m : String)
    (hdc : documentclassSingle ∉ A)
    (h1 : beginDocument ∉ A) (h2 : beginDocument ∉ M) (h3 : beginDocument ∉ B)
    (ht : fmGet fm "title" = some t) (hi : fmGet fm "id" = some i)
    (hr : fmGet fm "revision" = some r) (hm : fmGet fm "manufacturer_name" = some m) :
    patchPipeline3 (A ++ documentclassSingle :: (M ++ beginDocument :: B)) fm c
      = .ok (((A ++ documentclassSingle :: marginLine :: M) ++ titleBlock t i r m)
          ++ headerBlock t i r
          ++ beginDocument :: thispagestyleEmpty :: (afterTitleBlock ++ B))
    ∧ (((A ++ documentclassSingle :: marginLine :: M) ++ titleBlock t i r m)
          ++ headerBlock t i r
          ++ beginDocument :: thispagestyleEmpty :: (afterTitleBlock ++ B)).length
      = (A ++ documentclassSingle :: (M ++ beginDocument :: B)).length + 16 := by
  have hA1 : beginDocument ∉ (A ++ documentclassSingle :: marginLine :: M) := by
    intro hmem
    rcases List.mem_append.mp hmem with h | h
    · exact h1 h
    · simp only [List.mem_cons] at h
      rcases h with h | h | h
      · exact absurd h (by decide)
      · exact absurd h (by decide)
      · exact h2 h
  have hA2 : beginDocument ∉ ((A ++ documentclassSingle :: marginLine :: M)
      ++ titleBlock t i r m) := by
    intro hmem
    rcases List.mem_append.mp hmem with h | h
    · exact hA1 h
    · exact begin_not_mem_titleBlock t i r m h
  have hma : add_margins (A ++ documentclassSingle :: (M ++ beginDocument :: B)) fm c
      = .ok ((A ++ documentclassSingle :: marginLine :: M) ++ beginDocument :: B) := by
    rw [add_margins_single A (M ++ beginDocument :: B) fm c hdc]
    simp
  have hti := add_title_structure (A ++ documentclassSingle :: marginLine :: M) B fm c
    t i r m hA1 ht hi hr hm
  have hhe := add_header_structure ((A ++ documentclassSingle :: marginLine :: M)
      ++ titleBlock t i r m) (afterTitleBlock ++ B) fm c t i r hA2 ht hi hr
  constructor
  · simp only [patchPipeline3, hma, hti]
    exact hhe
  · simp [titleBlock, headerBlock, afterTitleBlock]
    omega

theorem pipeline_growth_sixteen_witness :
    patchPipeline3 ([] ++ documentclassSingle :: ([] ++ beginDocument :: []))
        [("title", "T"), ("id", "D"), ("revision", "1"), ("manufacturer_name", "M")] ()
      = .ok ((([] ++ documentclassSingle :: marginLine :: [])
          ++ titleBlock "T" "D" "1" "M") ++ headerBlock "T" "D" "1"
          ++ beginDocument :: thispagestyleEmpty :: (afterTitleBlock ++ []))
      := by
  exact (pipeline_growth_sixteen [] [] []
    [("title", "T"), ("id", "D"), ("revision", "1"), ("manufacturer_name", "M")]
    () "T" "D" "1" "M"
    (by decide) (by decide) (by decide) (by decide) rfl rfl rfl rfl).1

/-! ## Claim C9: the passes ignore the context argument -/

theorem handle_images_ctx_any {Ctx1 Ctx2 : Type} (c1 : Ctx1) (c2 : Ctx2)
    (fm : FrontMatter) (ab : String → String) :
    ∀ (lines : List String) (fs : FsState),
      handle_images lines fm c1 ab fs = handle_images lines fm c2 ab fs := by
  intro lines
  induction lines with
  | nil => intro fs; rfl
  | cons l ls ih =>
    intro fs
    simp only [handle_images]
    cases hp : processImageLine ab fs l with
    | error e => rfl
    | ok p =>
      obtain ⟨l2, fs2⟩ := p
      simp only [hp]
      rw [ih fs2]

/-- C9: every patch pass's result is independent of the context argument:
for any two context values (even of different types) the margins, title/ToC,
header/footer and image-resolution passes produce identical results. -/
theorem context_independence :
    ∀ (Ctx1 Ctx2 : Type) (c1 : Ctx1) (c2 : Ctx2) (lines : List String)
      (fm : FrontMatter) (ab : String → String) (fs : FsState),
      add_margins lines fm c1 = add_margins lines fm c2
      ∧ add_title_and_toc lines fm c1 = add_title_and_toc lines fm c2
      ∧ add_header_and_footer lines fm c1 = add_header_and_footer lines fm c2
      ∧ handle_images lines fm c1 ab fs = handle_images lines fm c2 ab fs :=
  fun _ _ c1 c2 lines fm ab fs =>
    ⟨rfl, rfl, rfl, handle_images_ctx_any c1 c2 fm ab lines fs⟩

/-! ## Lemmas: the split on the front-matter delimiter -/

theorem splitFirst_decomp (sep : List Char) :
    ∀ (s a b : List Char), splitFirst sep s = some (a, b) → s = a ++ sep ++ b := by
  intro s
  induction s with
  | nil =>
    intro a b h
    simp only [splitFirst] at h
    by_cases hp : sep.isPrefixOf ([] : List Char)
    · rw [if_pos hp] at h
      have hsep : sep = [] := List.prefix_nil.mp (List.isPrefixOf_iff_prefix.mp hp)
      rw [Option.some.injEq, Prod.mk.injEq] at h
      obtain ⟨ha, hb⟩ := h
      subst hsep
      simp at hb
      simp [← ha, ← hb]
    · rw [if_neg hp] at h
      exact absurd h (by simp)
  | cons c rest ih =>
    intro a b h
    simp only [splitFirst] at h
    by_cases hp : sep.isPrefixOf (c :: rest)
    · rw [if_pos hp] at h
      rw [Option.some.injEq, Prod.mk.injEq] at h
      obtain ⟨ha, hb⟩ := h
      obtain ⟨t, ht⟩ := List.isPrefixOf_iff_prefix.mp hp
      rw [← ht] at hb ⊢
      rw [List.drop_left] at hb
      rw [← ha, hb]
      simp
    · rw [if_neg hp] at h
      rcases Option.map_eq_some'.mp h with ⟨⟨a', b'⟩, h1, h2⟩
      obtain ⟨ha, hb⟩ := Prod.mk.injEq .. |>.mp h2
      have hrest := ih a' b' h1
      rw [← ha, ← hb, hrest]
      simp

theorem splitFirst_length {s a b : List Char}
    (h : splitFirst yamlDelim s = some (a, b)) : b.length < s.length := by
  have hd := splitFirst_decomp yamlDelim s a b h
  have h2 := congrArg List.length hd
  simp [yamlDelim] at h2
  omega

theorem pySplitF_congr : ∀ (f1 f2 : Nat) (s : List Char),
    s.length ≤ f1 → s.length ≤ f2 → pySplitF f1 s = pySplitF f2 s := by
  intro f1
  induction f1 with
  | zero =>
    intro f2 s h1 h2
    have hs : s = [] := List.length_eq_zero.mp (Nat.le_zero.mp h1)
    subst hs
    cases f2 with
    | zero => rfl
    | succ f2' => simp [pySplitF, show splitFirst yamlDelim [] = none from rfl]
  | succ f1' ih =>
    intro f2 s h1 h2
    cases hsf : splitFirst yamlDelim s with
    | none =>
      cases f2 with
      | zero =>
        have hs : s = [] := List.length_eq_zero.mp (Nat.le_zero.mp h2)
        subst hs
        simp [pySplitF, hsf]
      | succ f2' => simp [pySplitF, hsf]
    | some p =>
      obtain ⟨a, b⟩ := p
      have hb := splitFirst_length hsf
      cases f2 with
      | zero => omega
      | succ f2' =>
        simp only [pySplitF, hsf]
        congr 1
        exact ih f2' b (by omega) (by omega)

theorem pySplit_eq (s : List Char) :
    pySplit s = (match splitFirst yamlDelim s with
      | none => [s]
      | some (a, b) => a :: pySplit b) := by
  cases hsf : splitFirst yamlDelim s with
  | none =>
    cases hl : s.length with
    | zero =>
      unfold pySplit
      rw [hl]
      rfl
    | succ n =>
      unfold pySplit
      rw [hl]
      simp [pySplitF, hsf]
  | some p =>
    obtain ⟨a, b⟩ := p
    have hb := splitFirst_length hsf
    have hsl : s.length = (s.length - 1) + 1 := by omega
    unfold pySplit
    rw [hsl]
    simp only [pySplitF, hsf]
    congr 1
    exact pySplitF_congr _ _ b (by omega) (by omega)

theorem pySplit_ne_nil (s : List Char) : pySplit s ≠ [] := by
  rw [pySplit_eq]
  cases splitFirst yamlDelim s with
  | none => simp
  | some p =>
    obtain ⟨a, b⟩ := p
    simp

theorem pySplit_cons {s a b : List Char} (h : splitFirst yamlDelim s = some (a, b)) :
    pySplit s = a :: pySplit b := by
  rw [pySplit_eq, h]

theorem pyJoinList_pySplit_aux : ∀ (n : Nat) (s : List Char), s.length ≤ n →
    pyJoinList yamlDelim (pySplit s) = s := by
  intro n
  induction n with
  | zero =>
    intro s h
    have hs : s = [] := List.length_eq_zero.mp (Nat.le_zero.mp h)
    subst hs
    rfl
  | succ n ih =>
    intro s h
    cases hsf : splitFirst yamlDelim s with
    | none =>
      rw [show pySplit s = [s] by rw [pySplit_eq, hsf]]
      simp [pyJoinList]
    | some p =>
      obtain ⟨a, b⟩ := p
      have hd := splitFirst_decomp yamlDelim s a b hsf
      have hb := splitFirst_length hsf
      cases hq : pySplit b with
      | nil => exact absurd hq (pySplit_ne_nil b)
      | cons q qs =>
        have hjb : pyJoinList yamlDelim (pySplit b) = b := ih b (by omega)
        rw [pySplit_cons hsf, hq]
        rw [show pyJoinList yamlDelim (a :: q :: qs)
            = a ++ yamlDelim ++ pyJoinList yamlDelim (q :: qs) by simp [pyJoinList]]
        rw [← hq, hjb]
        exact hd.symm

theorem pyJoinList_pySplit (s : List Char) :
    pyJoinList yamlDelim (pySplit s) = s :=
  pyJoinList_pySplit_aux s.length s (Nat.le_refl _)

/-! ## Lemmas: counting delimiter occurrences -/

theorem isPrefixOf_append_self (s t : List Char) : s.isPrefixOf (s ++ t) = true :=
  List.isPrefixOf_iff_prefix.mpr (List.prefix_append s t)

theorem two_le_length_of_two_mem {α : Type} [DecidableEq α] (l : List α) (hl : l.Nodup)
    (x y : α) (hx : x ∈ l) (hy : y ∈ l) (hxy : x ≠ y) : 2 ≤ l.length := by
  have hy' : y ∈ l.erase x := hl.mem_erase_iff.mpr ⟨fun he => hxy he.symm, hy⟩
  have h1 : 0 < (l.erase x).length := List.length_pos_of_mem hy'
  have h2 : (l.erase x).length = l.length - 1 := List.length_erase_of_mem hx
  omega

theorem countOcc_two (a a2 b2 : List Char) :
    2 ≤ countOcc (a ++ (yamlDelim ++ (a2 ++ (yamlDelim ++ b2)))) := by
  have hlen : (a ++ (yamlDelim ++ (a2 ++ (yamlDelim ++ b2)))).length
      = a.length + (4 + (a2.length + (4 + b2.length))) := by
    simp [yamlDelim]
    omega
  have hp1 : yamlDelim.isPrefixOf
      ((a ++ (yamlDelim ++ (a2 ++ (yamlDelim ++ b2)))).drop a.length) = true := by
    rw [List.drop_left]
    exact isPrefixOf_append_self _ _
  have hp2 : yamlDelim.isPrefixOf
      ((a ++ (yamlDelim ++ (a2 ++ (yamlDelim ++ b2)))).drop
        (a.length + (4 + a2.length))) = true := by
    rw [drop_length_add]
    rw [show (4 : Nat) + a2.length = yamlDelim.length + a2.length from rfl]
    rw [drop_length_add, List.drop_left]
    exact isPrefixOf_append_self _ _
  have hm1 : a.length ∈ (List.range (a ++ (yamlDelim ++ (a2 ++ (yamlDelim ++ b2)))).length).filter
      (fun i => yamlDelim.isPrefixOf ((a ++ (yamlDelim ++ (a2 ++ (yamlDelim ++ b2)))).drop i)) :=
    List.mem_filter.mpr ⟨List.mem_range.mpr (by omega), hp1⟩
  have hm2 : a.length + (4 + a2.length)
      ∈ (List.range (a ++ (yamlDelim ++ (a2 ++ (yamlDelim ++ b2)))).length).filter
      (fun i => yamlDelim.isPrefixOf ((a ++ (yamlDelim ++ (a2 ++ (yamlDelim ++ b2)))).drop i)) :=
    List.mem_filter.mpr ⟨List.mem_range.mpr (by omega), hp2⟩
  have hnd : ((List.range (a ++ (yamlDelim ++ (a2 ++ (yamlDelim ++ b2)))).length).filter
      (fun i => yamlDelim.isPrefixOf
        ((a ++ (yamlDelim ++ (a2 ++ (yamlDelim ++ b2)))).drop i))).Nodup :=
    (List.nodup_range _).filter _
  have := two_le_length_of_two_mem _ hnd _ _ hm1 hm2 (by omega)
  simpa [countOcc] using this

/-! ## Lemmas: extractParts -/

theorem extractParts_short {α : Type} (yl : List Char → Except String α)
    (parts : List (List Char)) (h : parts.length ≤ 2) :
    extractParts yl parts = .error "Invalid YAML front matter" := by
  cases parts with
  | nil => rfl
  | cons a t =>
    cases t with
    | nil => rfl
    | cons b t2 =>
      cases t2 with
      | nil => rfl
      | cons cc t3 =>
        simp at h

theorem extractParts_head_irrel {α : Type} (yl : List Char → Except String α)
    (x y : List Char) (l : List (List Char)) :
    extractParts yl (x :: l) = extractParts yl (y :: l) := by
  cases l with
  | nil => rfl
  | cons p1 t =>
    cases t with
    | nil => rfl
    | cons p2 r => rfl

theorem extract_ok_of_two_splits {α : Type} (yamlLoad : List Char → Except String α)
    (raw pre rest mid body : List Char) (fm : α)
    (h1 : splitFirst yamlDelim raw = some (pre, rest))
    (h2 : splitFirst yamlDelim rest = some (mid, body))
    (h3 : yamlLoad mid = .ok fm) :
    _extract_yaml_front_matter yamlLoad raw = .ok (body, fm) := by
  simp only [_extract_yaml_front_matter]
  rw [pySplit_cons h1, pySplit_cons h2]
  cases hq : pySplit body with
  | nil => exact absurd hq (pySplit_ne_nil body)
  | cons q qs =>
    simp only [extractParts, h3]
    rw [← hq, pyJoinList_pySplit]

/-! ## Claim C4: extraction on well-delimited input -/

/-- C4: on input whose leftmost delimiter occurrence separates off pre and
whose second occurrence separates mid from body, extraction returns exactly
the body after the second delimiter (delimiters inside the body rejoined
verbatim, since body is returned byte-for-byte) together with the result of
parsing mid as YAML; the input decomposes accordingly. -/
theorem front_matter_extraction_correct {α : Type} (yamlLoad : List Char → Except String α)
    (raw pre rest mid body : List Char) (fm : α)
    (h1 : splitFirst yamlDelim raw = some (pre, rest))
    (h2 : splitFirst yamlDelim rest = some (mid, body))
    (h3 : yamlLoad mid = .ok fm) :
    _extract_yaml_front_matter yamlLoad raw = .ok (body, fm)
    ∧ raw = pre ++ yamlDelim ++ (mid ++ yamlDelim ++ body) := by
  refine ⟨extract_ok_of_two_splits yamlLoad raw pre rest mid body fm h1 h2 h3, ?_⟩
  have hd1 := splitFirst_decomp yamlDelim raw pre rest h1
  have hd2 := splitFirst_decomp yamlDelim rest mid body h2
  rw [hd1, hd2]

theorem front_matter_extraction_correct_witness :
    _extract_yaml_front_matter (fun s => Except.ok s) "---\na: 1\n---\nbody\n---\nmore".data
      = .ok ("body\n---\nmore".data, "a: 1\n".data)
    ∧ "---\na: 1\n---\nbody\n---\nmore".data
      = [] ++ yamlDelim ++ ("a: 1\n".data ++ yamlDelim ++ "body\n---\nmore".data) :=
  front_matter_extraction_correct (fun s => Except.ok s)
    "---\na: 1\n---\nbody\n---\nmore".data [] "a: 1\n---\nbody\n---\nmore".data
    "a: 1\n".data "body\n---\nmore".data "a: 1\n".data rfl rfl rfl

/-! ## Claim C10: the preamble before the first delimiter is ignored -/

/-- C10: extraction does not require an empty preamble: whatever stands
before the first delimiter is discarded, the result depends only on what
follows the first delimiter, and with a second delimiter and a successful
YAML parse extraction succeeds. -/
theorem preamble_ignored {α : Type} (yamlLoad : List Char → Except String α)
    (raw raw' pre pre' rest : List Char)
    (h1 : splitFirst yamlDelim raw = some (pre, rest))
    (h2 : splitFirst yamlDelim raw' = some (pre', rest)) :
    _extract_yaml_front_matter yamlLoad raw = _extract_yaml_front_matter yamlLoad raw'
    ∧ (∀ (mid body : List Char) (fm : α),
        splitFirst yamlDelim rest = some (mid, body) → yamlLoad mid = .ok fm →
        _extract_yaml_front_matter yamlLoad raw = .ok (body, fm)) := by
  constructor
  · simp only [_extract_yaml_front_matter]
    rw [pySplit_cons h1, pySplit_cons h2]
    exact extractParts_head_irrel yamlLoad pre pre' (pySplit rest)
  · intro mid body fm hsf hok
    exact extract_ok_of_two_splits yamlLoad raw pre rest mid body fm h1 hsf hok

theorem preamble_ignored_witness :
    _extract_yaml_front_matter (fun s => Except.ok s) "XX---\nm\n---\nB".data
      = _extract_yaml_front_matter (fun s => Except.ok s) "---\nm\n---\nB".data
    ∧ _extract_yaml_front_matter (fun s => Except.ok s) "XX---\nm\n---\nB".data
      = .ok ("B".data, "m\n".data) :=
  ⟨(preamble_ignored (fun s => Except.ok s) "XX---\nm\n---\nB".data "---\nm\n---\nB".data
      "XX".data [] "m\n---\nB".data rfl rfl).1,
   (preamble_ignored (fun s => Except.ok s) "XX---\nm\n---\nB".data "---\nm\n---\nB".data
      "XX".data [] "m\n---\nB".data rfl rfl).2 "m\n".data "B".data "m\n".data rfl rfl⟩

/-! ## Claim C8: too few delimiters -/

/-- C8: input with zero or one occurrence of the delimiter makes extraction
fail with the format error, and the whole pipeline aborts with that error
before any conversion work: the outcome is the same for every pandoc
function, filesystem and context, and no output is produced. -/
theorem too_few_delimiters_error (raw : List Char) (hocc : countOcc raw ≤ 1) :
    (∀ (α : Type) (yl : List Char → Except String α),
      _extract_yaml_front_matter yl raw = .error "Invalid YAML front matter")
    ∧ (∀ (Ctx : Type) (c : Ctx) (yl : List Char → Except String FrontMatter)
        (pandocRun : List Char → PandocResult) (ab : String → String) (fs : FsState),
        yaml_gfm_to_tex yl pandocRun ab fs raw c
          = .error (.formatError "Invalid YAML front matter")) := by
  have hshort : ∀ (α : Type) (yl : List Char → Except String α),
      _extract_yaml_front_matter yl raw = .error "Invalid YAML front matter" := by
    intro α yl
    simp only [_extract_yaml_front_matter]
    cases h1 : splitFirst yamlDelim raw with
    | none =>
      rw [pySplit_eq, h1]
      rfl
    | some p =>
      obtain ⟨a, b⟩ := p
      cases h2 : splitFirst yamlDelim b with
      | none =>
        rw [pySplit_cons h1, show pySplit b = [b] by rw [pySplit_eq, h2]]
        rfl
      | some p2 =>
        obtain ⟨a2, b2⟩ := p2
        exfalso
        have hd1 := splitFirst_decomp yamlDelim raw a b h1
        have hd2 := splitFirst_decomp yamlDelim b a2 b2 h2
        have h2le : 2 ≤ countOcc raw := by
          have hc := countOcc_two a a2 b2
          rw [hd1, hd2]
          simpa [List.append_assoc] using hc
        omega
  refine ⟨hshort, ?_⟩
  intro Ctx c yl pandocRun ab fs
  simp only [yaml_gfm_to_tex, hshort FrontMatter yl]

theorem too_few_delimiters_error_witness :
    countOcc "---\nonly one".data ≤ 1
    ∧ _extract_yaml_front_matter (fun s => Except.ok s) "---\nonly one".data
      = .error "Invalid YAML front matter"
    ∧ yaml_gfm_to_tex (fun _ => Except.ok ([] : FrontMatter)) (fun _ => ⟨0, []⟩) id
        ⟨[], [], [], [], []⟩ "---\nonly one".data ()
      = .error (.formatError "Invalid YAML front matter") :=
  ⟨by decide,
   (too_few_delimiters_error "---\nonly one".data (by decide)).1 (List Char)
     (fun s => Except.ok s),
   (too_few_delimiters_error "---\nonly one".data (by decide)).2 Unit ()
     (fun _ => Except.ok ([] : FrontMatter)) (fun _ => ⟨0, []⟩) id ⟨[], [], [], [], []⟩⟩

/-! ## Lemmas: the image-inclusion pattern and staging paths -/

theorem imgMatchL_build (p : String) (hnl : p.data.contains '\n' = false) :
    imgMatchL (imgBuild p).data = some p.data := by
  have hdata : (imgBuild p).data = imgLeadL ++ (p.data ++ ['\x7d']) := by
    rw [imgBuild]
    simp [imgLeadL, sdata_append]
  have hlast : (imgLeadL ++ (p.data ++ ['\x7d'])).getLast? = some '\x7d' := by
    rw [show imgLeadL ++ (p.data ++ ['\x7d']) = (imgLeadL ++ p.data) ++ ['\x7d'] by simp,
        List.getLast?_concat]
  have hrest : (imgLeadL ++ (p.data ++ ['\x7d'])).drop imgLeadL.length
      = p.data ++ ['\x7d'] := List.drop_left _ _
  have hrl : (p.data ++ ['\x7d']).getLast? = some '\x7d' := List.getLast?_concat _
  have hdl : (p.data ++ ['\x7d']).dropLast = p.data := List.dropLast_concat
  rw [hdata]
  simp only [imgMatchL, hlast, hrest, hrl, hdl, hnl]
  rw [if_neg (by decide : ¬ ((some '\x7d' : Option Char) = some '\n'))]
  rw [if_pos (isPrefixOf_append_self imgLeadL (p.data ++ ['\x7d']))]
  simp only [hrest, hrl, hdl, hnl]
  simp at hnl
  simp [hnl]

theorem strEndsWith_append_left (a b t : String) (h : strEndsWith b t = true) :
    strEndsWith (a ++ b) t = true := by
  rw [strEndsWith, sdata_append]
  rw [strEndsWith] at h
  exact List.isSuffixOf_iff_suffix.mpr
    ((List.isSuffixOf_iff_suffix.mp h).trans (List.suffix_append _ _))

theorem strEndsWith_refl (s : String) : strEndsWith s s = true :=
  List.isSuffixOf_iff_suffix.mpr (List.suffix_refl _)

theorem strEndsWith_concat_self (a b : String) : strEndsWith (a ++ b) b = true :=
  strEndsWith_append_left a b b (strEndsWith_refl b)

theorem pyJoin_endsWith (a b t : String) (h : strEndsWith b t = true) :
    strEndsWith (pyJoin a b) t = true := by
  rw [pyJoin]
  by_cases h1 : strStartsWith b "/" = true
  · rw [if_pos h1]
    exact h
  · rw [if_neg h1]
    by_cases h2 : a = "" ∨ strEndsWith a "/" = true
    · rw [if_pos h2]
      exact strEndsWith_append_left a b t h
    · rw [if_neg h2]
      rw [show a ++ "/" ++ b = (a ++ "/") ++ b by simp]
      exact strEndsWith_append_left (a ++ "/") b t h

theorem stagedSvgPath_pdf (p : String) : strEndsWith (stagedSvgPath p) ".pdf" = true :=
  pyJoin_endsWith _ _ _ (strEndsWith_concat_self _ ".pdf")

theorem stagedCopyPath_tail (p : String) :
    strEndsWith (stagedCopyPath p) (pySplitPath p).2 = true :=
  pyJoin_endsWith _ _ _ (strEndsWith_refl _)

/-! ## Lemmas: one step of the image loop -/

theorem processImage_ok_mono (ab : String → String) (fs : FsState) (line l' : String)
    (fs' : FsState) (h : processImageLine ab fs line = .ok (l', fs')) :
    (∀ x, x ∈ fs.rasterized → x ∈ fs'.rasterized)
    ∧ (∀ x, x ∈ fs.copies → x ∈ fs'.copies) := by
  simp only [processImageLine, svg_to_pdf, shutil_copyfile] at h
  cases him : imgMatchL line.data with
  | none =>
    simp only [him, Except.ok.injEq, Prod.mk.injEq] at h
    obtain ⟨-, hfs⟩ := h
    subst hfs
    exact ⟨fun x hx => hx, fun x hx => hx⟩
  | some pathL =>
    simp only [him] at h
    by_cases hc : (String.mk pathL) ∈ fs.files
    · by_cases hsvg : strEndsWith (String.mk pathL) ".svg" = true
      · simp [hsvg, hc] at h
        obtain ⟨-, hfs⟩ := h
        subst hfs
        exact ⟨fun x hx => by simp [hx], fun x hx => by simpa using hx⟩
      · simp [hsvg, hc] at h
        obtain ⟨-, hfs⟩ := h
        subst hfs
        exact ⟨fun x hx => by simpa using hx, fun x hx => by simp [hx]⟩
    · by_cases hsvg : strEndsWith (String.mk pathL) ".svg" = true
      · simp [hsvg, hc] at h
      · simp [hsvg, hc] at h

theorem processImage_build_ok (ab : String → String) (fs : FsState) (p l' : String)
    (fs' : FsState) (hnl : p.data.contains '\n' = false)
    (h : processImageLine ab fs (imgBuild p) = .ok (l', fs')) :
    (strEndsWith p ".svg" = true →
      l' = imgRewrite (stagedSvgPath p) ∧ (p, stagedSvgPath p) ∈ fs'.rasterized)
    ∧ (strEndsWith p ".svg" = false →
      l' = imgRewrite (stagedCopyPath p) ∧ (p, stagedCopyPath p) ∈ fs'.copies) := by
  simp only [processImageLine, imgMatchL_build p hnl, string_mk_data,
    svg_to_pdf, shutil_copyfile] at h
  constructor
  · intro hsvg
    by_cases hc : p ∈ fs.files
    · simp [hsvg, hc] at h
      obtain ⟨hl, hfs⟩ := h
      subst hfs
      constructor
      · simp [stagedSvgPath, hl]
      · simp [stagedSvgPath]
    · simp [hsvg, hc] at h
  · intro hsvg
    by_cases hc : p ∈ fs.files
    · simp [hsvg, hc] at h
      obtain ⟨hl, hfs⟩ := h
      subst hfs
      constructor
      · simp [stagedCopyPath, hl]
      · simp [stagedCopyPath]
    · simp [hsvg, hc] at h

theorem handle_images_ok_mono {Ctx : Type} (fm : FrontMatter) (c : Ctx)
    (ab : String → String) :
    ∀ (lines : List String) (fs : FsState) (lines' : List String) (fs' : FsState),
      handle_images lines fm c ab fs = .ok (lines', fs') →
      (∀ x, x ∈ fs.rasterized → x ∈ fs'.rasterized)
      ∧ (∀ x, x ∈ fs.copies → x ∈ fs'.copies) := by
  intro lines
  induction lines with
  | nil =>
    intro fs lines' fs' h
    simp only [handle_images, Except.ok.injEq, Prod.mk.injEq] at h
    obtain ⟨-, hfs⟩ := h
    subst hfs
    exact ⟨fun x hx => hx, fun x hx => hx⟩
  | cons l ls ih =>
    intro fs lines' fs' h
    simp only [handle_images] at h
    cases hp : processImageLine ab fs l with
    | error e => simp [hp] at h
    | ok q =>
      obtain ⟨l2, fs2⟩ := q
      simp only [hp] at h
      cases hr : handle_images ls fm c ab fs2 with
      | error e => simp [hr] at h
      | ok q2 =>
        obtain ⟨rest', fs''⟩ := q2
        simp only [hr] at h
        simp only [Except.ok.injEq, Prod.mk.injEq] at h
        obtain ⟨-, hfs⟩ := h
        subst hfs
        have m1 := processImage_ok_mono ab fs l l2 fs2 hp
        have m2 := ih fs2 rest' fs'' hr
        exact ⟨fun x hx => m2.1 x (m1.1 x hx), fun x hx => m2.2 x (m1.2 x hx)⟩

/-! ## Claim C7: the image resolver's rewriting -/

/-- C7: in any completed run of the Image Resolver, every image-inclusion
line whose captured path ends in .svg had the rasterizer invoked on it and
is rewritten (with the fixed 0.95 text-width display, which imgRewrite
carries) to the staged path whose extension is .pdf; every matching line
with a non-svg path was byte-copied and the rewritten path keeps the
original file name, hence its extension. -/
theorem image_resolver_rewrites {Ctx : Type} (lines lines' : List String)
    (fm : FrontMatter) (c : Ctx) (ab : String → String) (fs fsF : FsState)
    (i : Nat) (path : String)
    (hrun : handle_images lines fm c ab fs = .ok (lines', fsF))
    (hline : lines.get? i = some (imgBuild path))
    (hnl : path.data.contains '\n' = false) :
    (strEndsWith path ".svg" = true →
      lines'.get? i = some (imgRewrite (stagedSvgPath path))
      ∧ strEndsWith (stagedSvgPath path) ".pdf" = true
      ∧ (path, stagedSvgPath path) ∈ fsF.rasterized)
    ∧ (strEndsWith path ".svg" = false →
      lines'.get? i = some (imgRewrite (stagedCopyPath path))
      ∧ strEndsWith (stagedCopyPath path) (pySplitPath path).2 = true
      ∧ (path, stagedCopyPath path) ∈ fsF.copies) := by
  induction lines generalizing fs i lines' with
  | nil => simp at hline
  | cons l ls ih =>
    simp only [handle_images] at hrun
    cases hp : processImageLine ab fs l with
    | error e => simp [hp] at hrun
    | ok q =>
      obtain ⟨l2, fs2⟩ := q
      simp only [hp] at hrun
      cases hr : handle_images ls fm c ab fs2 with
      | error e => simp [hr] at hrun
      | ok q2 =>
        obtain ⟨rest', fs''⟩ := q2
        simp only [hr] at hrun
        simp only [Except.ok.injEq, Prod.mk.injEq] at hrun
        obtain ⟨hlines, hfs⟩ := hrun
        subst hfs
        cases i with
        | zero =>
          simp only [List.get?] at hline
          injection hline with hline
          subst hline
          have hspec := processImage_build_ok ab fs path l2 fs2 hnl hp
          have hmono := handle_images_ok_mono fm c ab ls fs2 rest' _ hr
          constructor
          · intro hsvg
            obtain ⟨hl2, hmem⟩ := hspec.1 hsvg
            subst hl2
            refine ⟨?_, stagedSvgPath_pdf path, hmono.1 _ hmem⟩
            rw [← hlines]
            rfl
          · intro hsvg
            obtain ⟨hl2, hmem⟩ := hspec.2 hsvg
            subst hl2
            refine ⟨?_, stagedCopyPath_tail path, hmono.2 _ hmem⟩
            rw [← hlines]
            rfl
        | succ j =>
          simp only [List.get?] at hline
          have := ih rest' fs2 j hr hline
          constructor
          · intro hsvg
            obtain ⟨hg, he, hm⟩ := this.1 hsvg
            exact ⟨by rw [← hlines]; simpa using hg, he, hm⟩
          · intro hsvg
            obtain ⟨hg, he, hm⟩ := this.2 hsvg
            exact ⟨by rw [← hlines]; simpa using hg, he, hm⟩

theorem image_resolver_rewrites_witness :
    ((["\\includegraphics[width=0.95\\textwidth]\x7b./tmp/images/a.pdf\x7d",
       "plain",
       "\\includegraphics[width=0.95\\textwidth]\x7b./tmp/images/b.png\x7d"] : List String).get? 0
        = some (imgRewrite (stagedSvgPath "images/a.svg"))
      ∧ strEndsWith (stagedSvgPath "images/a.svg") ".pdf" = true
      ∧ ("images/a.svg", stagedSvgPath "images/a.svg")
        ∈ (⟨["./tmp/images/b.png", "./tmp/images/a.pdf", "images/a.svg", "images/b.png"],
            ["./tmp/images", "./tmp/images"], [],
            [("images/b.png", "./tmp/images/b.png")],
            [("images/a.svg", "./tmp/images/a.pdf")]⟩ : FsState).rasterized)
    ∧ ((["\\includegraphics[width=0.95\\textwidth]\x7b./tmp/images/a.pdf\x7d",
       "plain",
       "\\includegraphics[width=0.95\\textwidth]\x7b./tmp/images/b.png\x7d"] : List String).get? 2
        = some (imgRewrite (stagedCopyPath "images/b.png"))
      ∧ strEndsWith (stagedCopyPath "images/b.png") (pySplitPath "images/b.png").2 = true
      ∧ ("images/b.png", stagedCopyPath "images/b.png")
        ∈ (⟨["./tmp/images/b.png", "./tmp/images/a.pdf", "images/a.svg", "images/b.png"],
            ["./tmp/images", "./tmp/images"], [],
            [("images/b.png", "./tmp/images/b.png")],
            [("images/a.svg", "./tmp/images/a.pdf")]⟩ : FsState).copies) :=
  ⟨(image_resolver_rewrites
      [imgBuild "images/a.svg", "plain", imgBuild "images/b.png"]
      ["\\includegraphics[width=0.95\\textwidth]\x7b./tmp/images/a.pdf\x7d",
       "plain",
       "\\includegraphics[width=0.95\\textwidth]\x7b./tmp/images/b.png\x7d"]
      [] () id
      ⟨["images/a.svg", "images/b.png"], [], [], [], []⟩
      ⟨["./tmp/images/b.png", "./tmp/images/a.pdf", "images/a.svg", "images/b.png"],
       ["./tmp/images", "./tmp/images"], [],
       [("images/b.png", "./tmp/images/b.png")],
       [("images/a.svg", "./tmp/images/a.pdf")]⟩
      0 "images/a.svg" rfl rfl (by decide)).1 (by decide),
   (image_resolver_rewrites
      [imgBuild "images/a.svg", "plain", imgBuild "images/b.png"]
      ["\\includegraphics[width=0.95\\textwidth]\x7b./tmp/images/a.pdf\x7d",
       "plain",
       "\\includegraphics[width=0.95\\textwidth]\x7b./tmp/images/b.png\x7d"]
      [] () id
      ⟨["images/a.svg", "images/b.png"], [], [], [], []⟩
      ⟨["./tmp/images/b.png", "./tmp/images/a.pdf", "images/a.svg", "images/b.png"],
       ["./tmp/images", "./tmp/images"], [],
       [("images/b.png", "./tmp/images/b.png")],
       [("images/a.svg", "./tmp/images/a.pdf")]⟩
      2 "images/b.png" rfl rfl (by decide)).2 (by decide)⟩

/-! ## Claim C2: a missing image does not, in fact, let the run continue -/

/-- C2 names a code bug: on an image-inclusion line whose source file is
missing, handle_images logs the non-fatal diagnostic (as the spec says) but
then falls through to the staging copy, which raises FileNotFoundError and
aborts the pass instead of continuing to produce an output document.  This
theorem evaluates the pass at the failing input: the diagnostic is in the
logs of the carried state, yet the result is an error, not a document. -/
theorem missing_image_aborts_run :
    handle_images [imgBuild "images/missing.png"] ([] : FrontMatter) ()
        (fun p => "/regulatory/" ++ p) ⟨[], [], [], [], []⟩
      = .error (.fileNotFound "images/missing.png",
          [imgBuild "images/missing.png"],
          ⟨[], ["./tmp/images"],
           ["Image does not exist: /regulatory/images/missing.png"], [], []⟩) := by
  rfl

end Rdm
